import Mathlib

/-!
Verification of the CLAS12 RG-E analysis core (clas12-rge-analysis).

Shallow embedding of the particle-reconstruction pipeline of
src/hipo2root.c (make_ntuples), the generic bank container declared in
lib/rge_hipo_bank.h, and the per-event counting loop of src/acc_corr.c.
Machine doubles carrying detector measurements are modelled as rationals;
the INFINITY sentinel used by get_tof is modelled as the none case of an
Option. Fatal error paths are modelled with Except over an explicit error
enumeration mirroring the rge_errno codes of rge_err_handler.
-/

namespace Rge

/-- Error kinds mirroring the RGEERR codes relevant to the claims
(rge_err_handler.c ERRMAP). -/
inductive RgeErr where
  /-- RGEERR_INVALIDCALLAYER: invalid layer in the calorimeter bank. -/
  | invalidCalLayer
  /-- RGEERR_INVALIDCHERENKOVID: invalid detector ID in the cherenkov bank. -/
  | invalidCherenkovId
  /-- RGEERR_NOFMTBANK: FMT::Tracks bank check failed in run(). -/
  | noFmtBank
  /-- RGEERR_UNSUPPORTEDPID and related: rge_set_pid failed. -/
  | unsupportedPid
  /-- RGEERR_ANGLEOUTOFRANGE: angle conversion error (result 2 of
  apply_fmtgeomtry_cut). -/
  | angleOutOfRange
  /-- Failure of rge_fill_ntuples_arr (returns nonzero). -/
  | fillError
  /-- The requested field name is not an entry of the bank
  (spec: FieldNotFound). -/
  | fieldNotFound
  /-- Access at a row index at or beyond the row count
  (spec: IndexOutOfRange; RGEERR_INVALIDENTRY in ERRMAP). -/
  | indexOutOfRange
  deriving DecidableEq, Repr

/-- Decidable equality of Except values, used to evaluate the fallible
operations at concrete inputs. -/
instance {ε α : Type _} [DecidableEq ε] [DecidableEq α] :
    DecidableEq (Except ε α) := fun x y =>
  match x, y with
  | .error e, .error f =>
    if h : e = f then .isTrue (by rw [h])
    else .isFalse (fun hc => by cases hc; exact h rfl)
  | .error _, .ok _ => .isFalse (fun hc => by cases hc)
  | .ok _, .error _ => .isFalse (fun hc => by cases hc)
  | .ok a, .ok b =>
    if h : a = b then .isTrue (by rw [h])
    else .isFalse (fun hc => by cases hc; exact h rfl)

/-- Detector IDs from CLAS12 reconstruction (hipo2root.c). -/
def FTOF_ID : Nat := 12

/-- HTCC detector id. -/
def HTCC_ID : Nat := 15

/-- LTCC detector id. -/
def LTCC_ID : Nat := 16

/-- FTOF layer id 1A (hipo2root.c). -/
def FTOF1A_LYR : Nat := 1

/-- FTOF layer id 1B (hipo2root.c). -/
def FTOF1B_LYR : Nat := 2

/-- FTOF layer id 2 (hipo2root.c). -/
def FTOF2_LYR : Nat := 3

/-- PCAL layer id (rge_hipo_bank.h). -/
def PCAL_LYR : Nat := 1

/-- EC inner layer id (rge_hipo_bank.h). -/
def ECIN_LYR : Nat := 4

/-- EC outer layer id (rge_hipo_bank.h). -/
def ECOU_LYR : Nat := 7

/-- One row of the REC::Scintillator bank, with the fields read by get_tof. -/
structure SciRow where
  pindex : Nat
  detector : Nat
  layer : Nat
  time : ℚ
  deriving DecidableEq, Repr

/-- One row of the REC::Calorimeter bank, with the fields read by get_tof
and get_deposited_energy. -/
structure CalRow where
  pindex : Nat
  layer : Nat
  time : ℚ
  energy : ℚ
  deriving DecidableEq, Repr

/-- One row of the REC::Cherenkov bank, with the fields read by
count_photoelectrons. -/
structure CheRow where
  pindex : Nat
  detector : Nat
  nphe : Int
  deriving DecidableEq, Repr

/-- Scintillator loop of get_tof (hipo2root.c lines 195-228). State is the
pair (most_precise_lyr, tof); tof = none models the INFINITY sentinel.
The break at an FTOF-1B hit is the non-recursive first branch. -/
def tofSciLoop (pindex : Nat) :
    List SciRow → Nat → Option ℚ → Nat × Option ℚ
  | [], mpl, tof => (mpl, tof)
  | r :: rest, mpl, tof =>
    if r.pindex ≠ pindex ∨ r.detector ≠ FTOF_ID then
      tofSciLoop pindex rest mpl tof
    else if r.layer = FTOF1B_LYR then
      (FTOF1B_LYR, some r.time)
    else if r.layer = FTOF1A_LYR then
      if mpl = FTOF1A_LYR then tofSciLoop pindex rest mpl tof
      else tofSciLoop pindex rest FTOF1A_LYR (some r.time)
    else if r.layer = FTOF2_LYR then
      if mpl ≠ 0 then tofSciLoop pindex rest mpl tof
      else tofSciLoop pindex rest FTOF2_LYR (some r.time)
    else
      tofSciLoop pindex rest mpl tof

/-- Calorimeter loop of get_tof (hipo2root.c lines 232-259), entered only
when the scintillator loop found no FTOF hit. The break at a PCAL hit is
the non-recursive first branch. -/
def tofCalLoop (pindex : Nat) :
    List CalRow → Nat → Option ℚ → Nat × Option ℚ
  | [], mpl, tof => (mpl, tof)
  | r :: rest, mpl, tof =>
    if r.pindex ≠ pindex then
      tofCalLoop pindex rest mpl tof
    else if r.layer = PCAL_LYR then
      (10 + PCAL_LYR, some r.time)
    else if r.layer = ECIN_LYR then
      if mpl = 10 + ECIN_LYR then tofCalLoop pindex rest mpl tof
      else tofCalLoop pindex rest (10 + ECIN_LYR) (some r.time)
    else if r.layer = ECOU_LYR then
      if mpl ≠ 0 then tofCalLoop pindex rest mpl tof
      else tofCalLoop pindex rest (10 + ECOU_LYR) (some r.time)
    else
      tofCalLoop pindex rest mpl tof

/-- get_tof of hipo2root.c: most precise time of flight for the particle
with the given pindex, from FTOF scintillator hits if any, else from
calorimeter hits. Returns none for the INFINITY sentinel (no timing). -/
def get_tof (sci : List SciRow) (cal : List CalRow) (pindex : Nat) :
    Option ℚ :=
  let s := tofSciLoop pindex sci 0 none
  if s.1 ≠ 0 then s.2 else (tofCalLoop pindex cal 0 none).2

/-- Accumulating loop of get_deposited_energy (hipo2root.c lines 285-298).
An unrecognized layer for a matching row aborts with
RGEERR_INVALIDCALLAYER. -/
def depLoop (pindex : Nat) :
    List CalRow → ℚ → ℚ → ℚ → Except RgeErr (ℚ × ℚ × ℚ)
  | [], ePCAL, eECIN, eECOU => .ok (ePCAL, eECIN, eECOU)
  | r :: rest, ePCAL, eECIN, eECOU =>
    if r.pindex ≠ pindex then depLoop pindex rest ePCAL eECIN eECOU
    else if r.layer = PCAL_LYR then
      depLoop pindex rest (ePCAL + r.energy) eECIN eECOU
    else if r.layer = ECIN_LYR then
      depLoop pindex rest ePCAL (eECIN + r.energy) eECOU
    else if r.layer = ECOU_LYR then
      depLoop pindex rest ePCAL eECIN (eECOU + r.energy)
    else
      .error .invalidCalLayer

/-- get_deposited_energy of hipo2root.c: sums deposited energy of the rows
matching pindex into the PCAL, ECIN and ECOU buckets (returned in that
order), failing with RGEERR_INVALIDCALLAYER on an unrecognized layer. -/
def get_deposited_energy (cal : List CalRow) (pindex : Nat) :
    Except RgeErr (ℚ × ℚ × ℚ) :=
  depLoop pindex cal 0 0 0

/-- Accumulating loop of count_photoelectrons (hipo2root.c lines 323-334). -/
def pheLoop (pindex : Nat) :
    List CheRow → Int → Int → Except RgeErr (Int × Int)
  | [], nHTCC, nLTCC => .ok (nHTCC, nLTCC)
  | r :: rest, nHTCC, nLTCC =>
    if r.pindex ≠ pindex then pheLoop pindex rest nHTCC nLTCC
    else if r.detector = HTCC_ID then pheLoop pindex rest (nHTCC + r.nphe) nLTCC
    else if r.detector = LTCC_ID then pheLoop pindex rest nHTCC (nLTCC + r.nphe)
    else
      .error .invalidCherenkovId

/-- count_photoelectrons of hipo2root.c: sums photoelectrons of the rows
matching pindex over the HTCC and LTCC counters, failing with
RGEERR_INVALIDCHERENKOVID on an unrecognized detector id. -/
def count_photoelectrons (che : List CheRow) (pindex : Nat) :
    Except RgeErr (Int × Int) :=
  pheLoop pindex che 0 0

/-- A scintillator hit of precedence level FTOF 1B for the given pindex. -/
def isHit1B (pindex : Nat) (r : SciRow) : Bool :=
  decide (r.pindex = pindex ∧ r.detector = FTOF_ID ∧ r.layer = FTOF1B_LYR)

/-- A scintillator hit of precedence level FTOF 1A for the given pindex. -/
def isHit1A (pindex : Nat) (r : SciRow) : Bool :=
  decide (r.pindex = pindex ∧ r.detector = FTOF_ID ∧ r.layer = FTOF1A_LYR)

/-- A scintillator hit of precedence level FTOF 2 for the given pindex. -/
def isHit2 (pindex : Nat) (r : SciRow) : Bool :=
  decide (r.pindex = pindex ∧ r.detector = FTOF_ID ∧ r.layer = FTOF2_LYR)

/-- A calorimeter hit of precedence level PCAL for the given pindex. -/
def isHitPCAL (pindex : Nat) (r : CalRow) : Bool :=
  decide (r.pindex = pindex ∧ r.layer = PCAL_LYR)

/-- A calorimeter hit of precedence level ECIN for the given pindex. -/
def isHitECIN (pindex : Nat) (r : CalRow) : Bool :=
  decide (r.pindex = pindex ∧ r.layer = ECIN_LYR)

/-- A calorimeter hit of precedence level ECOU for the given pindex. -/
def isHitECOU (pindex : Nat) (r : CalRow) : Bool :=
  decide (r.pindex = pindex ∧ r.layer = ECOU_LYR)

/-- Stated from the spec's words: evaluate the ordered precedence list
FTOF 1B > 1A > 2 > PCAL > ECIN > ECOU and return the timing value of the
first hit of the first precedence level that has a hit matching the
particle index; none if no level has a hit. -/
def tofSpec (sci : List SciRow) (cal : List CalRow) (pindex : Nat) :
    Option ℚ :=
  ((sci.find? (isHit1B pindex)).map SciRow.time) <|>
  ((sci.find? (isHit1A pindex)).map SciRow.time) <|>
  ((sci.find? (isHit2 pindex)).map SciRow.time) <|>
  ((cal.find? (isHitPCAL pindex)).map CalRow.time) <|>
  ((cal.find? (isHitECIN pindex)).map CalRow.time) <|>
  ((cal.find? (isHitECOU pindex)).map CalRow.time)

/-- In the state where an FTOF-1A hit has been recorded, the scintillator
loop only upgrades to a later FTOF-1B hit. -/
lemma tofSciLoop_1A (pindex : Nat) :
    ∀ (rs : List SciRow) (t : ℚ),
      tofSciLoop pindex rs FTOF1A_LYR (some t) =
        match rs.find? (isHit1B pindex) with
        | some r => (FTOF1B_LYR, some r.time)
        | none => (FTOF1A_LYR, some t) := by
  intro rs
  induction rs with
  | nil => intro t; simp [tofSciLoop]
  | cons r rest ih =>
    intro t
    by_cases hskip : r.pindex ≠ pindex ∨ r.detector ≠ FTOF_ID
    · have h1B : ¬ isHit1B pindex r := by
        simp only [isHit1B, decide_eq_true_eq]
        rcases hskip with h | h <;> tauto
      simp only [tofSciLoop, if_pos hskip, List.find?_cons_of_neg _ h1B, ih]
    · push_neg at hskip
      obtain ⟨hp, hd⟩ := hskip
      have hskip' : ¬ (r.pindex ≠ pindex ∨ r.detector ≠ FTOF_ID) := by
        push_neg; exact ⟨hp, hd⟩
      by_cases hl2 : r.layer = FTOF1B_LYR
      · have h1B : isHit1B pindex r := by
          simp [isHit1B, hp, hd, hl2]
        simp only [tofSciLoop, if_neg hskip', if_pos hl2,
          List.find?_cons_of_pos _ h1B]
      · have h1B : ¬ isHit1B pindex r := by
          simp only [isHit1B, decide_eq_true_eq]; tauto
        by_cases hl1 : r.layer = FTOF1A_LYR
        · simp only [tofSciLoop, if_neg hskip', if_neg hl2, if_pos hl1,
            List.find?_cons_of_neg _ h1B, ih, if_pos trivial, eq_self_iff_true,
            if_true]
        · by_cases hl3 : r.layer = FTOF2_LYR
          · have hne : FTOF1A_LYR ≠ 0 := by decide
            simp only [tofSciLoop, if_neg hskip', if_neg hl2, if_neg hl1,
              if_pos hl3, if_pos hne, List.find?_cons_of_neg _ h1B, ih]
          · simp only [tofSciLoop, if_neg hskip', if_neg hl2, if_neg hl1,
              if_neg hl3, List.find?_cons_of_neg _ h1B, ih]

/-- In the state where an FTOF-2 hit has been recorded, the scintillator
loop only upgrades to a later FTOF-1B or FTOF-1A hit. -/
lemma tofSciLoop_2 (pindex : Nat) :
    ∀ (rs : List SciRow) (t : ℚ),
      tofSciLoop pindex rs FTOF2_LYR (some t) =
        match rs.find? (isHit1B pindex) with
        | some r => (FTOF1B_LYR, some r.time)
        | none =>
          match rs.find? (isHit1A pindex) with
          | some r => (FTOF1A_LYR, some r.time)
          | none => (FTOF2_LYR, some t) := by
  intro rs
  induction rs with
  | nil => intro t; simp [tofSciLoop]
  | cons r rest ih =>
    intro t
    by_cases hskip : r.pindex ≠ pindex ∨ r.detector ≠ FTOF_ID
    · have h1B : ¬ isHit1B pindex r := by
        simp only [isHit1B, decide_eq_true_eq]
        rcases hskip with h | h <;> tauto
      have h1A : ¬ isHit1A pindex r := by
        simp only [isHit1A, decide_eq_true_eq]
        rcases hskip with h | h <;> tauto
      simp only [tofSciLoop, if_pos hskip, List.find?_cons_of_neg _ h1B,
        List.find?_cons_of_neg _ h1A, ih]
    · push_neg at hskip
      obtain ⟨hp, hd⟩ := hskip
      have hskip' : ¬ (r.pindex ≠ pindex ∨ r.detector ≠ FTOF_ID) := by
        push_neg; exact ⟨hp, hd⟩
      by_cases hl2 : r.layer = FTOF1B_LYR
      · have h1B : isHit1B pindex r := by simp [isHit1B, hp, hd, hl2]
        simp only [tofSciLoop, if_neg hskip', if_pos hl2,
          List.find?_cons_of_pos _ h1B]
      · have h1B : ¬ isHit1B pindex r := by
          simp only [isHit1B, decide_eq_true_eq]; tauto
        by_cases hl1 : r.layer = FTOF1A_LYR
        · have h1A : isHit1A pindex r := by simp [isHit1A, hp, hd, hl1]
          have hne : ¬ (FTOF2_LYR = FTOF1A_LYR) := by decide
          simp only [tofSciLoop, if_neg hskip', if_neg hl2, if_pos hl1,
            if_neg hne, List.find?_cons_of_neg _ h1B,
            List.find?_cons_of_pos _ h1A, tofSciLoop_1A]
        · have h1A : ¬ isHit1A pindex r := by
            simp only [isHit1A, decide_eq_true_eq]; tauto
          by_cases hl3 : r.layer = FTOF2_LYR
          · have hne : FTOF2_LYR ≠ 0 := by decide
            simp only [tofSciLoop, if_neg hskip', if_neg hl2, if_neg hl1,
              if_pos hl3, if_pos hne, List.find?_cons_of_neg _ h1B,
              List.find?_cons_of_neg _ h1A, ih]
          · simp only [tofSciLoop, if_neg hskip', if_neg hl2, if_neg hl1,
              if_neg hl3, List.find?_cons_of_neg _ h1B,
              List.find?_cons_of_neg _ h1A, ih]

/-- From the initial state, the scintillator loop of get_tof computes the
first hit of the best available FTOF precedence level. -/
lemma tofSciLoop_0 (pindex : Nat) :
    ∀ rs : List SciRow,
      tofSciLoop pindex rs 0 none =
        match rs.find? (isHit1B pindex) with
        | some r => (FTOF1B_LYR, some r.time)
        | none =>
          match rs.find? (isHit1A pindex) with
          | some r => (FTOF1A_LYR, some r.time)
          | none =>
            match rs.find? (isHit2 pindex) with
            | some r => (FTOF2_LYR, some r.time)
            | none => (0, none) := by
  intro rs
  induction rs with
  | nil => simp [tofSciLoop]
  | cons r rest ih =>
    by_cases hskip : r.pindex ≠ pindex ∨ r.detector ≠ FTOF_ID
    · have h1B : ¬ isHit1B pindex r := by
        simp only [isHit1B, decide_eq_true_eq]
        rcases hskip with h | h <;> tauto
      have h1A : ¬ isHit1A pindex r := by
        simp only [isHit1A, decide_eq_true_eq]
        rcases hskip with h | h <;> tauto
      have h2 : ¬ isHit2 pindex r := by
        simp only [isHit2, decide_eq_true_eq]
        rcases hskip with h | h <;> tauto
      simp only [tofSciLoop, if_pos hskip, List.find?_cons_of_neg _ h1B,
        List.find?_cons_of_neg _ h1A, List.find?_cons_of_neg _ h2, ih]
    · push_neg at hskip
      obtain ⟨hp, hd⟩ := hskip
      have hskip' : ¬ (r.pindex ≠ pindex ∨ r.detector ≠ FTOF_ID) := by
        push_neg; exact ⟨hp, hd⟩
      by_cases hl2 : r.layer = FTOF1B_LYR
      · have h1B : isHit1B pindex r := by simp [isHit1B, hp, hd, hl2]
        simp only [tofSciLoop, if_neg hskip', if_pos hl2,
          List.find?_cons_of_pos _ h1B]
      · have h1B : ¬ isHit1B pindex r := by
          simp only [isHit1B, decide_eq_true_eq]; tauto
        by_cases hl1 : r.layer = FTOF1A_LYR
        · have h1A : isHit1A pindex r := by simp [isHit1A, hp, hd, hl1]
          have hne : ¬ ((0 : Nat) = FTOF1A_LYR) := by decide
          simp only [tofSciLoop, if_neg hskip', if_neg hl2, if_pos hl1,
            if_neg hne, List.find?_cons_of_neg _ h1B,
            List.find?_cons_of_pos _ h1A, tofSciLoop_1A]
        · have h1A : ¬ isHit1A pindex r := by
            simp only [isHit1A, decide_eq_true_eq]; tauto
          by_cases hl3 : r.layer = FTOF2_LYR
          · have h2 : isHit2 pindex r := by simp [isHit2, hp, hd, hl3]
            have hz : ¬ ((0 : Nat) ≠ 0) := by decide
            simp only [tofSciLoop, if_neg hskip', if_neg hl2, if_neg hl1,
              if_pos hl3, if_neg hz, List.find?_cons_of_neg _ h1B,
              List.find?_cons_of_neg _ h1A, List.find?_cons_of_pos _ h2,
              tofSciLoop_2]
          · have h2 : ¬ isHit2 pindex r := by
              simp only [isHit2, decide_eq_true_eq]; tauto
            simp only [tofSciLoop, if_neg hskip', if_neg hl2, if_neg hl1,
              if_neg hl3, List.find?_cons_of_neg _ h1B,
              List.find?_cons_of_neg _ h1A, List.find?_cons_of_neg _ h2, ih]

/-- In the state where an ECIN hit has been recorded, the calorimeter loop
only upgrades to a later PCAL hit. -/
lemma tofCalLoop_ECIN (pindex : Nat) :
    ∀ (rs : List CalRow) (t : ℚ),
      tofCalLoop pindex rs (10 + ECIN_LYR) (some t) =
        match rs.find? (isHitPCAL pindex) with
        | some r => (10 + PCAL_LYR, some r.time)
        | none => (10 + ECIN_LYR, some t) := by
  intro rs
  induction rs with
  | nil => intro t; simp [tofCalLoop]
  | cons r rest ih =>
    intro t
    by_cases hp : r.pindex ≠ pindex
    · have hP : ¬ isHitPCAL pindex r := by
        simp only [isHitPCAL, decide_eq_true_eq]; tauto
      simp only [tofCalLoop, if_pos hp, List.find?_cons_of_neg _ hP, ih]
    · push_neg at hp
      have hp' : ¬ (r.pindex ≠ pindex) := by push_neg; exact hp
      by_cases hlP : r.layer = PCAL_LYR
      · have hP : isHitPCAL pindex r := by simp [isHitPCAL, hp, hlP]
        simp only [tofCalLoop, if_neg hp', if_pos hlP,
          List.find?_cons_of_pos _ hP]
      · have hP : ¬ isHitPCAL pindex r := by
          simp only [isHitPCAL, decide_eq_true_eq]; tauto
        by_cases hlI : r.layer = ECIN_LYR
        · simp only [tofCalLoop, if_neg hp', if_neg hlP, if_pos hlI,
            List.find?_cons_of_neg _ hP, ih, if_pos trivial,
            eq_self_iff_true, if_true]
        · by_cases hlO : r.layer = ECOU_LYR
          · have hne : 10 + ECIN_LYR ≠ 0 := by decide
            simp only [tofCalLoop, if_neg hp', if_neg hlP, if_neg hlI,
              if_pos hlO, if_pos hne, List.find?_cons_of_neg _ hP, ih]
          · simp only [tofCalLoop, if_neg hp', if_neg hlP, if_neg hlI,
              if_neg hlO, List.find?_cons_of_neg _ hP, ih]

/-- In the state where an ECOU hit has been recorded, the calorimeter loop
only upgrades to a later PCAL or ECIN hit. -/
lemma tofCalLoop_ECOU (pindex : Nat) :
    ∀ (rs : List CalRow) (t : ℚ),
      tofCalLoop pindex rs (10 + ECOU_LYR) (some t) =
        match rs.find? (isHitPCAL pindex) with
        | some r => (10 + PCAL_LYR, some r.time)
        | none =>
          match rs.find? (isHitECIN pindex) with
          | some r => (10 + ECIN_LYR, some r.time)
          | none => (10 + ECOU_LYR, some t) := by
  intro rs
  induction rs with
  | nil => intro t; simp [tofCalLoop]
  | cons r rest ih =>
    intro t
    by_cases hp : r.pindex ≠ pindex
    · have hP : ¬ isHitPCAL pindex r := by
        simp only [isHitPCAL, decide_eq_true_eq]; tauto
      have hI : ¬ isHitECIN pindex r := by
        simp only [isHitECIN, decide_eq_true_eq]; tauto
      simp only [tofCalLoop, if_pos hp, List.find?_cons_of_neg _ hP,
        List.find?_cons_of_neg _ hI, ih]
    · push_neg at hp
      have hp' : ¬ (r.pindex ≠ pindex) := by push_neg; exact hp
      by_cases hlP : r.layer = PCAL_LYR
      · have hP : isHitPCAL pindex r := by simp [isHitPCAL, hp, hlP]
        simp only [tofCalLoop, if_neg hp', if_pos hlP,
          List.find?_cons_of_pos _ hP]
      · have hP : ¬ isHitPCAL pindex r := by
          simp only [isHitPCAL, decide_eq_true_eq]; tauto
        by_cases hlI : r.layer = ECIN_LYR
        · have hI : isHitECIN pindex r := by simp [isHitECIN, hp, hlI]
          have hne : ¬ (10 + ECOU_LYR = 10 + ECIN_LYR) := by decide
          simp only [tofCalLoop, if_neg hp', if_neg hlP, if_pos hlI,
            if_neg hne, List.find?_cons_of_neg _ hP,
            List.find?_cons_of_pos _ hI, tofCalLoop_ECIN]
        · have hI : ¬ isHitECIN pindex r := by
            simp only [isHitECIN, decide_eq_true_eq]; tauto
          by_cases hlO : r.layer = ECOU_LYR
          · have hne : 10 + ECOU_LYR ≠ 0 := by decide
            simp only [tofCalLoop, if_neg hp', if_neg hlP, if_neg hlI,
              if_pos hlO, if_pos hne, List.find?_cons_of_neg _ hP,
              List.find?_cons_of_neg _ hI, ih]
          · simp only [tofCalLoop, if_neg hp', if_neg hlP, if_neg hlI,
              if_neg hlO, List.find?_cons_of_neg _ hP,
              List.find?_cons_of_neg _ hI, ih]

/-- From the initial state, the calorimeter loop of get_tof computes the
first hit of the best available calorimeter precedence level. -/
lemma tofCalLoop_0 (pindex : Nat) :
    ∀ rs : List CalRow,
      tofCalLoop pindex rs 0 none =
        match rs.find? (isHitPCAL pindex) with
        | some r => (10 + PCAL_LYR, some r.time)
        | none =>
          match rs.find? (isHitECIN pindex) with
          | some r => (10 + ECIN_LYR, some r.time)
          | none =>
            match rs.find? (isHitECOU pindex) with
            | some r => (10 + ECOU_LYR, some r.time)
            | none => (0, none) := by
  intro rs
  induction rs with
  | nil => simp [tofCalLoop]
  | cons r rest ih =>
    by_cases hp : r.pindex ≠ pindex
    · have hP : ¬ isHitPCAL pindex r := by
        simp only [isHitPCAL, decide_eq_true_eq]; tauto
      have hI : ¬ isHitECIN pindex r := by
        simp only [isHitECIN, decide_eq_true_eq]; tauto
      have hO : ¬ isHitECOU pindex r := by
        simp only [isHitECOU, decide_eq_true_eq]; tauto
      simp only [tofCalLoop, if_pos hp, List.find?_cons_of_neg _ hP,
        List.find?_cons_of_neg _ hI, List.find?_cons_of_neg _ hO, ih]
    · push_neg at hp
      have hp' : ¬ (r.pindex ≠ pindex) := by push_neg; exact hp
      by_cases hlP : r.layer = PCAL_LYR
      · have hP : isHitPCAL pindex r := by simp [isHitPCAL, hp, hlP]
        simp only [tofCalLoop, if_neg hp', if_pos hlP,
          List.find?_cons_of_pos _ hP]
      · have hP : ¬ isHitPCAL pindex r := by
          simp only [isHitPCAL, decide_eq_true_eq]; tauto
        by_cases hlI : r.layer = ECIN_LYR
        · have hI : isHitECIN pindex r := by simp [isHitECIN, hp, hlI]
          have hne : ¬ ((0 : Nat) = 10 + ECIN_LYR) := by decide
          simp only [tofCalLoop, if_neg hp', if_neg hlP, if_pos hlI,
            if_neg hne, List.find?_cons_of_neg _ hP,
            List.find?_cons_of_pos _ hI, tofCalLoop_ECIN]
        · have hI : ¬ isHitECIN pindex r := by
            simp only [isHitECIN, decide_eq_true_eq]; tauto
          by_cases hlO : r.layer = ECOU_LYR
          · have hO : isHitECOU pindex r := by simp [isHitECOU, hp, hlO]
            have hz : ¬ ((0 : Nat) ≠ 0) := by decide
            simp only [tofCalLoop, if_neg hp', if_neg hlP, if_neg hlI,
              if_pos hlO, if_neg hz, List.find?_cons_of_neg _ hP,
              List.find?_cons_of_neg _ hI, List.find?_cons_of_pos _ hO,
              tofCalLoop_ECOU]
          · have hO : ¬ isHitECOU pindex r := by
              simp only [isHitECOU, decide_eq_true_eq]; tauto
            simp only [tofCalLoop, if_neg hp', if_neg hlP, if_neg hlI,
              if_neg hlO, List.find?_cons_of_neg _ hP,
              List.find?_cons_of_neg _ hI, List.find?_cons_of_neg _ hO, ih]

/-- Claim C1: for every scintillator bank, calorimeter bank and particle
index, get_tof returns the timing value of the first precedence level, in
the fixed order FTOF 1B > 1A > 2 > PCAL > ECIN > ECOU, that has a hit
matching that particle index (the first such hit's value, so values from
different levels are never combined or averaged); in particular, with hits
at only the second- and third-best levels the second-best value is
returned. -/
theorem get_tof_precedence (sci : List SciRow) (cal : List CalRow)
    (pindex : Nat) : get_tof sci cal pindex = tofSpec sci cal pindex := by
  simp only [get_tof, tofSpec, tofSciLoop_0]
  cases h1B : sci.find? (isHit1B pindex) with
  | some r => simp [FTOF1B_LYR]
  | none =>
    cases h1A : sci.find? (isHit1A pindex) with
    | some r => simp [FTOF1A_LYR]
    | none =>
      cases h2 : sci.find? (isHit2 pindex) with
      | some r => simp [FTOF2_LYR]
      | none =>
        simp only [ne_eq, not_true_eq_false, if_false, Option.map_none,
          Option.none_orElse, tofCalLoop_0]
        cases hP : cal.find? (isHitPCAL pindex) with
        | some r => simp
        | none =>
          cases hI : cal.find? (isHitECIN pindex) with
          | some r => simp
          | none =>
            cases hO : cal.find? (isHitECOU pindex) with
            | some r => simp
            | none => simp

/-- A calorimeter row that makes get_deposited_energy fail: it matches the
queried pindex but its layer is none of PCAL, ECIN, ECOU. -/
def calBadRow (pindex : Nat) (r : CalRow) : Bool :=
  decide (r.pindex = pindex ∧
    r.layer ≠ PCAL_LYR ∧ r.layer ≠ ECIN_LYR ∧ r.layer ≠ ECOU_LYR)

/-- Total deposited energy of the rows matching pindex on one layer. -/
def layerEnergySum (cal : List CalRow) (pindex l : Nat) : ℚ :=
  ((cal.filter (fun r => r.pindex == pindex && r.layer == l)).map
    CalRow.energy).sum

/-- Characterization of the accumulating loop of get_deposited_energy:
it fails exactly when a matching row has an unrecognized layer, and
otherwise adds the per-layer filtered sums to the accumulators. -/
lemma depLoop_eq (pindex : Nat) :
    ∀ (cal : List CalRow) (a b c : ℚ),
      depLoop pindex cal a b c =
        if cal.any (calBadRow pindex) then
          Except.error RgeErr.invalidCalLayer
        else
          Except.ok (a + layerEnergySum cal pindex PCAL_LYR,
            b + layerEnergySum cal pindex ECIN_LYR,
            c + layerEnergySum cal pindex ECOU_LYR) := by
  intro cal
  induction cal with
  | nil => intro a b c; simp [depLoop, layerEnergySum]
  | cons r rest ih =>
    intro a b c
    by_cases hp : r.pindex ≠ pindex
    · have hbad : calBadRow pindex r = false := by
        simp only [calBadRow, decide_eq_false_iff_not]; tauto
      have hf : ∀ l : Nat, (r.pindex == pindex && r.layer == l) = false := by
        intro l
        simp only [Bool.and_eq_false_iff, beq_eq_false_iff_ne, ne_eq]
        tauto
      simp only [depLoop, if_pos hp, ih, List.any_cons, hbad, Bool.false_or,
        layerEnergySum, List.filter_cons, hf, if_false, Bool.false_eq_true]
    · push_neg at hp
      have hp' : ¬ (r.pindex ≠ pindex) := by push_neg; exact hp
      have hfPCAL :
          (r.pindex == pindex && r.layer == PCAL_LYR) = (r.layer == PCAL_LYR) := by
        simp [hp]
      have hfECIN :
          (r.pindex == pindex && r.layer == ECIN_LYR) = (r.layer == ECIN_LYR) := by
        simp [hp]
      have hfECOU :
          (r.pindex == pindex && r.layer == ECOU_LYR) = (r.layer == ECOU_LYR) := by
        simp [hp]
      by_cases hlP : r.layer = PCAL_LYR
      · have hbad : calBadRow pindex r = false := by
          simp only [calBadRow, decide_eq_false_iff_not]; tauto
        have h4 : ¬ (r.layer = ECIN_LYR) := by
          rw [hlP]; decide
        have h7 : ¬ (r.layer = ECOU_LYR) := by
          rw [hlP]; decide
        simp only [depLoop, if_neg hp', if_pos hlP, ih, List.any_cons, hbad,
          Bool.false_or, layerEnergySum, List.filter_cons, hfPCAL, hfECIN,
          hfECOU, beq_iff_eq, if_pos hlP, if_neg h4, if_neg h7, List.map_cons,
          List.sum_cons]
        split_ifs with hany
        · rfl
        · rw [add_assoc]
      · by_cases hlI : r.layer = ECIN_LYR
        · have hbad : calBadRow pindex r = false := by
            simp only [calBadRow, decide_eq_false_iff_not]; tauto
          have h7 : ¬ (r.layer = ECOU_LYR) := by
            rw [hlI]; decide
          simp only [depLoop, if_neg hp', if_neg hlP, if_pos hlI, ih,
            List.any_cons, hbad, Bool.false_or, layerEnergySum,
            List.filter_cons, hfPCAL, hfECIN, hfECOU, beq_iff_eq,
            if_neg hlP, if_pos hlI, if_neg h7, List.map_cons, List.sum_cons]
          split_ifs with hany
          · rfl
          · rw [add_assoc]
        · by_cases hlO : r.layer = ECOU_LYR
          · have hbad : calBadRow pindex r = false := by
              simp only [calBadRow, decide_eq_false_iff_not]; tauto
            simp only [depLoop, if_neg hp', if_neg hlP, if_neg hlI,
              if_pos hlO, ih, List.any_cons, hbad, Bool.false_or,
              layerEnergySum, List.filter_cons, hfPCAL, hfECIN, hfECOU,
              beq_iff_eq, if_neg hlP, if_neg hlI, if_pos hlO, List.map_cons,
              List.sum_cons]
            split_ifs with hany
            · rfl
            · rw [add_assoc]
          · have hbad : calBadRow pindex r = true := by
              simp only [calBadRow, decide_eq_true_eq]
              exact ⟨hp, hlP, hlI, hlO⟩
            simp only [depLoop, if_neg hp', if_neg hlP, if_neg hlI,
              if_neg hlO, List.any_cons, hbad, Bool.true_or, if_true]

/-- Claim C4: if some calorimeter row matching the target particle index
has a layer id other than PCAL, ECIN and ECOU, energy aggregation fails
with the fatal RGEERR_INVALIDCALLAYER error instead of skipping the
row. -/
theorem get_deposited_energy_invalid_layer (cal : List CalRow)
    (pindex : Nat)
    (h : ∃ r ∈ cal, r.pindex = pindex ∧ r.layer ≠ PCAL_LYR ∧
      r.layer ≠ ECIN_LYR ∧ r.layer ≠ ECOU_LYR) :
    get_deposited_energy cal pindex = .error .invalidCalLayer := by
  unfold get_deposited_energy
  rw [depLoop_eq]
  have hany : cal.any (calBadRow pindex) = true := by
    rw [List.any_eq_true]
    obtain ⟨r, hmem, hprops⟩ := h
    exact ⟨r, hmem, by simpa only [calBadRow, decide_eq_true_eq] using hprops⟩
  rw [if_pos hany]

/-- Witness for claim C4: a row with layer 9 for the targeted particle
index triggers the failure. -/
theorem get_deposited_energy_invalid_layer_witness :
    get_deposited_energy [⟨0, 9, 0, 1⟩] 0 = .error .invalidCalLayer :=
  get_deposited_energy_invalid_layer [⟨0, 9, 0, 1⟩] 0
    ⟨⟨0, 9, 0, 1⟩, by simp, rfl, by decide, by decide, by decide⟩

/-- Claim C5: the aggregation scenario of the spec. Rows with energies
0.20 (PCAL, pindex 0), 0.05 (ECIN, pindex 0), 0.10 (PCAL, pindex 1);
aggregating for pindex 0 yields PCAL 0.20, ECIN 0.05, ECOU 0. -/
theorem get_deposited_energy_scenario :
    get_deposited_energy
      [⟨0, PCAL_LYR, 0, 1/5⟩, ⟨0, ECIN_LYR, 0, 1/20⟩, ⟨1, PCAL_LYR, 0, 1/10⟩]
      0 = .ok (1/5, 1/20, 0) := by
  norm_num [get_deposited_energy, depLoop, PCAL_LYR, ECIN_LYR, ECOU_LYR]

/-- List.any is invariant under permutation. -/
lemma perm_any_congr {α} (f : α → Bool) {l₁ l₂ : List α}
    (h : l₁.Perm l₂) : l₁.any f = l₂.any f := by
  induction h with
  | nil => rfl
  | cons x _ ih => simp [List.any_cons, ih]
  | swap x y l => simp [List.any_cons, Bool.or_left_comm]
  | trans _ _ ih₁ ih₂ => rw [ih₁, ih₂]

/-- Claim C7: energy aggregation is additive and order-independent; for
every permutation of the calorimeter bank's rows it produces identical
per-layer totals (and the same error behaviour). -/
theorem get_deposited_energy_perm_invariant (cal cal' : List CalRow)
    (pindex : Nat) (h : cal.Perm cal') :
    get_deposited_energy cal pindex = get_deposited_energy cal' pindex := by
  unfold get_deposited_energy
  rw [depLoop_eq, depLoop_eq, perm_any_congr _ h]
  have hsum : ∀ l, layerEnergySum cal pindex l = layerEnergySum cal' pindex l := by
    intro l
    unfold layerEnergySum
    exact ((h.filter _).map CalRow.energy).sum_eq
  rw [hsum, hsum, hsum]

/-- Witness for claim C7: swapping two rows leaves the totals unchanged. -/
theorem get_deposited_energy_perm_invariant_witness :
    get_deposited_energy [⟨0, 1, 0, 1⟩, ⟨0, 4, 0, 2⟩] 0 =
      get_deposited_energy [⟨0, 4, 0, 2⟩, ⟨0, 1, 0, 1⟩] 0 :=
  get_deposited_energy_perm_invariant _ _ 0
    (List.Perm.swap (⟨0, 4, 0, 2⟩ : CalRow) (⟨0, 1, 0, 1⟩ : CalRow) [])

/-- One row of the REC::Track bank together with the per-row outcomes of
the external helpers applied to it inside the event loop of run()
(hipo2root.c). rge_particle_init, apply_fmtgeomtry_cut, rge_set_pid and
rge_fill_ntuples_arr are deterministic functions of the event's bank rows
and run-level constants, so within one event their results for a track row
are fixed and are modelled as precomputed attributes: valid is the
is_valid flag of the built candidate, cutResult the 0/1/2 result of
apply_fmtgeomtry_cut (whose internals are real-valued trigonometry),
setPidOk whether rge_set_pid succeeds, isTrigger the resulting is_trigger
flag, fillOk whether rge_fill_ntuples_arr succeeds, and pid the assigned
particle id. -/
structure TrackRow where
  pindex : Nat
  valid : Bool
  cutResult : Nat
  setPidOk : Bool
  isTrigger : Bool
  fillOk : Bool
  pid : Int
  deriving DecidableEq, Repr

/-- The per-event bank contents read by the event loop of run(): the
particle-bank row count and the track, calorimeter, Cherenkov and
scintillator rows. -/
structure Event where
  npart : Nat
  trk : List TrackRow
  cal : List CalRow
  che : List CheRow
  sci : List SciRow
  deriving DecidableEq, Repr

/-- One record appended to the output ntuple; trigger marks the record
emitted by the trigger-search phase (filled from part_trigger). -/
structure OutputRec where
  trigger : Bool
  pos : Nat
  pindex : Nat
  pid : Int
  deriving DecidableEq, Repr

/-- Trigger-electron search of run() (hipo2root.c lines 491-555): scan
track rows in stored order; skip invalid candidates and candidates cut by
the FMT geometry cut; abort on an angle-conversion error, a calorimeter or
Cherenkov aggregation error, or a PID-assignment failure; stop and emit at
the first candidate whose is_trigger flag is set. -/
def findTriggerLoop (fmt_cut : Bool) (ev : Event) :
    Nat → List TrackRow → Except RgeErr (Option (Nat × TrackRow))
  | _, [] => .ok none
  | pos, r :: rest =>
    if r.valid = false then findTriggerLoop fmt_cut ev (pos + 1) rest
    else if fmt_cut = true ∧ r.cutResult = 1 then
      findTriggerLoop fmt_cut ev (pos + 1) rest
    else if fmt_cut = true ∧ r.cutResult = 2 then .error .angleOutOfRange
    else
      match get_deposited_energy ev.cal r.pindex with
      | .error e => .error e
      | .ok _ =>
        match count_photoelectrons ev.che r.pindex with
        | .error e => .error e
        | .ok _ =>
          if r.setPidOk = false then .error .unsupportedPid
          else if r.isTrigger = false then
            findTriggerLoop fmt_cut ev (pos + 1) rest
          else if r.fillOk = false then .error .fillError
          else .ok (some (pos, r))

/-- Second loop of run() (hipo2root.c lines 562-625): process the
remaining track rows, skipping the trigger electron's row, and emit one
output record per remaining valid, cut-passing candidate. -/
def processOthers (fmt_cut : Bool) (ev : Event) (tpindex tpos : Nat) :
    Nat → List TrackRow → Except RgeErr (List OutputRec)
  | _, [] => .ok []
  | pos, r :: rest =>
    if tpindex = r.pindex ∧ tpos = pos then
      processOthers fmt_cut ev tpindex tpos (pos + 1) rest
    else if r.valid = false then
      processOthers fmt_cut ev tpindex tpos (pos + 1) rest
    else if fmt_cut = true ∧ r.cutResult = 1 then
      processOthers fmt_cut ev tpindex tpos (pos + 1) rest
    else if fmt_cut = true ∧ r.cutResult = 2 then .error .angleOutOfRange
    else
      match get_deposited_energy ev.cal r.pindex with
      | .error e => .error e
      | .ok _ =>
        match count_photoelectrons ev.che r.pindex with
        | .error e => .error e
        | .ok _ =>
          if r.setPidOk = false then .error .unsupportedPid
          else if r.fillOk = false then .error .fillError
          else
            match processOthers fmt_cut ev tpindex tpos (pos + 1) rest with
            | .error e => .error e
            | .ok recs => .ok (⟨false, pos, r.pindex, r.pid⟩ :: recs)

/-- Per-event body of run()'s event loop: skip events without particle or
track rows, search for the trigger electron, skip the event when none is
found, else emit the trigger record followed by the records of the
remaining tracks. -/
def processEvent (fmt_cut : Bool) (ev : Event) :
    Except RgeErr (List OutputRec) :=
  if ev.npart = 0 ∨ ev.trk.length = 0 then .ok []
  else
    match findTriggerLoop fmt_cut ev 0 ev.trk with
    | .error e => .error e
    | .ok none => .ok []
    | .ok (some (tpos, tr)) =>
      match processOthers fmt_cut ev tr.pindex tpos 0 ev.trk with
      | .error e => .error e
      | .ok others => .ok (⟨true, tpos, tr.pindex, tr.pid⟩ :: others)

/-- Records emitted by the second loop of run() are never
trigger-flagged. -/
lemma processOthers_no_trigger (fmt_cut : Bool) (ev : Event)
    (tpindex tpos : Nat) :
    ∀ (l : List TrackRow) (pos : Nat) (recs : List OutputRec),
      processOthers fmt_cut ev tpindex tpos pos l = .ok recs →
      ∀ rec ∈ recs, rec.trigger = false := by
  intro l
  induction l with
  | nil =>
    intro pos recs h rec hrec
    simp only [processOthers] at h
    cases h
    cases hrec
  | cons r rest ih =>
    intro pos recs h rec hrec
    simp only [processOthers] at h
    split at h
    · exact ih _ _ h rec hrec
    · split at h
      · exact ih _ _ h rec hrec
      · split at h
        · exact ih _ _ h rec hrec
        · split at h
          · cases h
          · split at h
            · cases h
            · split at h
              · cases h
              · split at h
                · cases h
                · split at h
                  · cases h
                  · split at h
                    · cases h
                    · cases h
                      rcases List.mem_cons.mp hrec with hhd | htl
                      · rw [hhd]
                      · exact ih _ _ (by assumption) rec htl

/-- If every track row is invalid, the trigger search finds nothing. -/
lemma findTriggerLoop_none_of_invalid (fmt_cut : Bool) (ev : Event) :
    ∀ (l : List TrackRow) (pos : Nat), (∀ r ∈ l, r.valid = false) →
      findTriggerLoop fmt_cut ev pos l = .ok none := by
  intro l
  induction l with
  | nil => intro pos _; simp [findTriggerLoop]
  | cons r rest ih =>
    intro pos hall
    have hr : r.valid = false := hall r (List.mem_cons_self r rest)
    simp only [findTriggerLoop, if_pos hr]
    exact ih (pos + 1) fun x hx => hall x (List.mem_cons_of_mem r hx)

/-- Claim C2: per event, at most one emitted output record is
trigger-flagged, and an event in which no track row yields a valid
candidate emits zero output records. -/
theorem processEvent_trigger_at_most_one (fmt_cut : Bool) (ev : Event) :
    (∀ recs, processEvent fmt_cut ev = .ok recs →
      (recs.filter (fun rec => rec.trigger)).length ≤ 1) ∧
    ((∀ r ∈ ev.trk, r.valid = false) → processEvent fmt_cut ev = .ok []) := by
  constructor
  · intro recs h
    unfold processEvent at h
    split at h
    · cases h; simp
    · split at h
      · cases h
      · cases h; simp
      · rename_i tpos tr heq
        split at h
        · cases h
        · rename_i others hothers
          cases h
          have hno : ∀ rec ∈ others, rec.trigger = false :=
            processOthers_no_trigger fmt_cut ev tr.pindex tpos ev.trk 0
              others hothers
          have hfil : others.filter (fun rec => rec.trigger) = [] := by
            rw [List.filter_eq_nil_iff]
            intro a ha
            simp [hno a ha]
          simp [List.filter_cons, hfil]
  · intro hall
    unfold processEvent
    split
    · rfl
    · rw [findTriggerLoop_none_of_invalid fmt_cut ev ev.trk 0 hall]

/-- Witness for claim C2: an event whose only track row is invalid emits
zero output records. -/
theorem processEvent_trigger_at_most_one_witness :
    processEvent false ⟨1, [⟨0, false, 0, true, false, true, 211⟩], [], [], []⟩ =
      .ok [] :=
  (processEvent_trigger_at_most_one false
    ⟨1, [⟨0, false, 0, true, false, true, 211⟩], [], [], []⟩).2 (by decide)

/-- A track row the trigger search accepts: valid candidate, passing the
geometric cut when that cut is enabled, classified as trigger electron. -/
def trigPasses (fmt_cut : Bool) (r : TrackRow) : Bool :=
  decide (r.valid = true ∧ (fmt_cut = true → r.cutResult ≠ 1) ∧
    r.isTrigger = true)

/-- Stated from the spec's words: the first row, in stored order, that is
valid, classified as electron and cut-passing (first match, not best
match). -/
def firstTrigger (fmt_cut : Bool) : Nat → List TrackRow → Option (Nat × TrackRow)
  | _, [] => none
  | pos, r :: rest =>
    if trigPasses fmt_cut r then some (pos, r)
    else firstTrigger fmt_cut (pos + 1) rest

/-- An event on which the per-row helpers raise no fatal error: no
angle-conversion failure, PID assignment and ntuple filling succeed on
every track row, and the calorimeter and Cherenkov banks contain only
recognized layer and detector ids. -/
def eventOk (ev : Event) : Prop :=
  (∀ r ∈ ev.trk, r.cutResult ≠ 2 ∧ r.setPidOk = true ∧ r.fillOk = true) ∧
  (∀ c ∈ ev.cal, c.layer = PCAL_LYR ∨ c.layer = ECIN_LYR ∨ c.layer = ECOU_LYR) ∧
  (∀ h ∈ ev.che, h.detector = HTCC_ID ∨ h.detector = LTCC_ID)

/-- Energy aggregation succeeds when every calorimeter row carries a
recognized layer id. -/
lemma get_deposited_energy_ok (cal : List CalRow) (pindex : Nat)
    (h : ∀ c ∈ cal, c.layer = PCAL_LYR ∨ c.layer = ECIN_LYR ∨ c.layer = ECOU_LYR) :
    ∃ v, get_deposited_energy cal pindex = .ok v := by
  unfold get_deposited_energy
  rw [depLoop_eq]
  have hany : cal.any (calBadRow pindex) = false := by
    rw [List.any_eq_false]
    intro c hc
    simp only [calBadRow, decide_eq_true_eq]
    have := h c hc
    tauto
  rw [if_neg (by simp [hany])]
  exact ⟨_, rfl⟩

/-- Photoelectron counting succeeds when every Cherenkov row carries a
recognized detector id. -/
lemma pheLoop_ok (pindex : Nat) :
    ∀ (che : List CheRow) (a b : Int),
      (∀ x ∈ che, x.detector = HTCC_ID ∨ x.detector = LTCC_ID) →
      ∃ v, pheLoop pindex che a b = .ok v := by
  intro che
  induction che with
  | nil => intro a b _; exact ⟨_, rfl⟩
  | cons r rest ih =>
    intro a b hall
    have hr := hall r (List.mem_cons_self r rest)
    have hrest : ∀ x ∈ rest, x.detector = HTCC_ID ∨ x.detector = LTCC_ID :=
      fun x hx => hall x (List.mem_cons_of_mem r hx)
    by_cases hp : r.pindex ≠ pindex
    · simp only [pheLoop, if_pos hp]
      exact ih a b hrest
    · rcases hr with hH | hL
      · simp only [pheLoop, if_neg hp, if_pos hH]
        exact ih _ _ hrest
      · by_cases hH : r.detector = HTCC_ID
        · simp only [pheLoop, if_neg hp, if_pos hH]
          exact ih _ _ hrest
        · simp only [pheLoop, if_neg hp, if_neg hH, if_pos hL]
          exact ih _ _ hrest

/-- On a fault-free suffix of rows, the trigger search loop returns
exactly the first-match result. -/
lemma findTriggerLoop_eq_firstTrigger (fmt_cut : Bool) (ev : Event)
    (hcal : ∀ c ∈ ev.cal,
      c.layer = PCAL_LYR ∨ c.layer = ECIN_LYR ∨ c.layer = ECOU_LYR)
    (hche : ∀ x ∈ ev.che, x.detector = HTCC_ID ∨ x.detector = LTCC_ID) :
    ∀ (l : List TrackRow) (pos : Nat),
      (∀ r ∈ l, r.cutResult ≠ 2 ∧ r.setPidOk = true ∧ r.fillOk = true) →
      findTriggerLoop fmt_cut ev pos l = .ok (firstTrigger fmt_cut pos l) := by
  intro l
  induction l with
  | nil => intro pos _; simp [findTriggerLoop, firstTrigger]
  | cons r rest ih =>
    intro pos hall
    obtain ⟨hcut2, hpid, hfill⟩ := hall r (List.mem_cons_self r rest)
    have hrest : ∀ x ∈ rest, x.cutResult ≠ 2 ∧ x.setPidOk = true ∧
        x.fillOk = true :=
      fun x hx => hall x (List.mem_cons_of_mem r hx)
    by_cases hv : r.valid = false
    · have hpass : ¬ trigPasses fmt_cut r := by
        simp only [trigPasses, decide_eq_true_eq]
        intro hc
        rw [hc.1] at hv
        cases hv
      simp only [findTriggerLoop, if_pos hv, firstTrigger, if_neg hpass]
      exact ih (pos + 1) hrest
    · have hv' : r.valid = true := by
        cases hval : r.valid
        · exact absurd hval hv
        · rfl
      by_cases hc1 : fmt_cut = true ∧ r.cutResult = 1
      · have hpass : ¬ trigPasses fmt_cut r := by
          simp only [trigPasses, decide_eq_true_eq]
          intro hc
          exact (hc.2.1 hc1.1) hc1.2
        simp only [findTriggerLoop, if_neg hv, if_pos hc1, firstTrigger,
          if_neg hpass]
        exact ih (pos + 1) hrest
      · have hc2 : ¬ (fmt_cut = true ∧ r.cutResult = 2) := by
          intro hc
          exact hcut2 hc.2
        obtain ⟨vdep, hdep⟩ := get_deposited_energy_ok ev.cal r.pindex hcal
        obtain ⟨vphe, hphe⟩ := pheLoop_ok r.pindex ev.che 0 0 hche
        have hpid' : ¬ (r.setPidOk = false) := by
          rw [hpid]; simp
        by_cases ht : r.isTrigger = false
        · have hpass : ¬ trigPasses fmt_cut r := by
            simp only [trigPasses, decide_eq_true_eq]
            intro hc
            rw [hc.2.2] at ht
            cases ht
          simp only [findTriggerLoop, if_neg hv, if_neg hc1, if_neg hc2,
            hdep, count_photoelectrons, hphe, if_neg hpid', if_pos ht,
            firstTrigger, if_neg hpass]
          exact ih (pos + 1) hrest
        · have ht' : r.isTrigger = true := by
            cases htr : r.isTrigger
            · exact absurd htr ht
            · rfl
          have hfill' : ¬ (r.fillOk = false) := by
            rw [hfill]; simp
          have hpass : trigPasses fmt_cut r := by
            simp only [trigPasses, decide_eq_true_eq]
            refine ⟨hv', fun hfc hr1 => ?_, ht'⟩
            exact hc1 ⟨hfc, hr1⟩
          simp only [findTriggerLoop, if_neg hv, if_neg hc1, if_neg hc2,
            hdep, count_photoelectrons, hphe, if_neg hpid', if_neg ht,
            if_neg hfill', firstTrigger, if_pos hpass]

/-- Claim C3: the trigger search scans track rows in stored order and
selects the first row that is valid, classified as trigger electron and
passing the optional geometric cut (first match, not best match); in the
scenario [A invalid, B valid electron passing cuts, C valid electron
passing cuts] it selects B and stops there. -/
theorem findTrigger_first_match (fmt_cut : Bool) (ev : Event)
    (hok : eventOk ev) :
    findTriggerLoop fmt_cut ev 0 ev.trk =
      .ok (firstTrigger fmt_cut 0 ev.trk) :=
  findTriggerLoop_eq_firstTrigger fmt_cut ev hok.2.1 hok.2.2 ev.trk 0 hok.1

/-- Witness for claim C3: the spec scenario. Track rows A (invalid), B and
C (both valid trigger electrons passing the cut) in stored order; the
search returns B at position 1. -/
theorem findTrigger_first_match_witness :
    findTriggerLoop true
      ⟨3, [⟨0, false, 0, true, true, true, 11⟩,
           ⟨1, true, 0, true, true, true, 11⟩,
           ⟨2, true, 0, true, true, true, 11⟩], [], [], []⟩ 0
      [⟨0, false, 0, true, true, true, 11⟩,
       ⟨1, true, 0, true, true, true, 11⟩,
       ⟨2, true, 0, true, true, true, 11⟩] =
      .ok (some (1, ⟨1, true, 0, true, true, true, 11⟩)) := by
  rw [findTrigger_first_match true
    ⟨3, [⟨0, false, 0, true, true, true, 11⟩,
         ⟨1, true, 0, true, true, true, 11⟩,
         ⟨2, true, 0, true, true, true, 11⟩], [], [], []⟩
    (by constructor
        · intro r hr
          fin_cases hr <;> exact ⟨by decide, rfl, rfl⟩
        · exact ⟨fun c hc => absurd hc (List.not_mem_nil c),
            fun x hx => absurd hx (List.not_mem_nil x)⟩)]
  decide

/-- Name of the FMT tracks bank (rge_hipo_bank.h RGE_FMTTRACKS). -/
def RGE_FMTTRACKS : String := "FMT::Tracks"

/-- The event loop of run(): process every event in input order,
concatenating emitted records, aborting the run on the first fatal
error. -/
def runEvents (fmt_cut : Bool) : List Event → Except RgeErr (List OutputRec)
  | [] => .ok []
  | ev :: evs =>
    match processEvent fmt_cut ev with
    | .error e => .error e
    | .ok recs =>
      match runEvents fmt_cut evs with
      | .error e => .error e
      | .ok rest => .ok (recs ++ rest)

/-- Prefix of run() around the event loop (hipo2root.c lines 419-423 and
470-626): before any event is processed, when fmt_nlayers is nonzero and
the input file's key list contains the FMT::Tracks bank, run() stops with
RGEERR_NOFMTBANK; otherwise the event loop runs. -/
def runModel (fmt_nlayers : Int) (fmt_cut : Bool) (keys : List String)
    (evs : List Event) : Except RgeErr (List OutputRec) :=
  if fmt_nlayers ≠ 0 ∧ keys.contains RGE_FMTTRACKS = true then
    .error .noFmtBank
  else runEvents fmt_cut evs

/-- Claim C9: with a nonzero FMT layer requirement, run() fails with
RGEERR_NOFMTBANK before processing any event exactly when the input
file's key list does contain the FMT::Tracks bank; when that bank is
absent the check passes and processing proceeds. -/
theorem run_fmt_bank_check (fmt_nlayers : Int) (fmt_cut : Bool)
    (keys : List String) (evs : List Event) (h : fmt_nlayers ≠ 0) :
    (keys.contains RGE_FMTTRACKS = true →
      runModel fmt_nlayers fmt_cut keys evs = .error .noFmtBank) ∧
    (keys.contains RGE_FMTTRACKS = false →
      runModel fmt_nlayers fmt_cut keys evs = runEvents fmt_cut evs) := by
  constructor
  · intro hc
    unfold runModel
    rw [if_pos ⟨h, hc⟩]
  · intro hc
    unfold runModel
    rw [if_neg (fun hcon => by rw [hc] at hcon; cases hcon.2)]

/-- Witness for claim C9: fmt_nlayers = 2 and a key list containing
FMT::Tracks make run() stop with RGEERR_NOFMTBANK. -/
theorem run_fmt_bank_check_witness :
    runModel 2 false ["FMT::Tracks"] [] = .error .noFmtBank :=
  (run_fmt_bank_check 2 false ["FMT::Tracks"] [] (by decide)).1 (by decide)

/-- Modelled from the spec: the implementation of the generic bank
container (rge_hipo_bank.c with get_entry and the typed accessors) is not
under src/, only its header rge_hipo_bank.h is. Following spec sections
4.1 and 8: a filled instance binds one value sequence per field name to a
declared row count; every field's sequence has length equal to the row
count. -/
structure rge_hipobank where
  nrows : Nat
  entries : List (String × List ℚ)
  deriving DecidableEq, Repr

/-- Modelled from the spec: get_entry looks the field name up in the
entry map, fails with FieldNotFound for unknown names and with
IndexOutOfRange (RGEERR_INVALIDENTRY) for a row index at or beyond the
row count, and otherwise returns the stored value. -/
def get_entry (b : rge_hipobank) (var : String) (idx : Nat) :
    Except RgeErr ℚ :=
  match b.entries.find? (fun e => e.1 == var) with
  | none => .error .fieldNotFound
  | some e =>
    if idx < b.nrows then .ok (e.2.getD idx 0)
    else .error .indexOutOfRange

/-- Modelled from the spec: rge_get_double returns the entry widened to
double. -/
def rge_get_double (b : rge_hipobank) (var : String) (idx : Nat) :
    Except RgeErr ℚ :=
  get_entry b var idx

/-- Truncation of a rational toward zero, the C cast from double to a
narrower integer type. -/
def ratTrunc (q : ℚ) : Int := q.num / (q.den : Int)

/-- Modelled from the spec: rge_get_int returns the entry converted to
int. -/
def rge_get_int (b : rge_hipobank) (var : String) (idx : Nat) :
    Except RgeErr Int :=
  (get_entry b var idx).map ratTrunc

/-- Modelled from the spec: rge_get_uint returns the entry converted to
uint. -/
def rge_get_uint (b : rge_hipobank) (var : String) (idx : Nat) :
    Except RgeErr Nat :=
  (get_entry b var idx).map (fun q => (ratTrunc q).toNat)

/-- Claim C6: on a filled bank container, for a field name the bank has,
every typed read at a row index at or beyond the row count fails with
IndexOutOfRange, and every read at a row index below the row count
succeeds with a value. -/
theorem rge_get_index_bounds (b : rge_hipobank) (var : String) (idx : Nat)
    (hwf : ∀ e ∈ b.entries, e.2.length = b.nrows)
    (hvar : (b.entries.find? (fun e => e.1 == var)).isSome = true) :
    (b.nrows ≤ idx →
      rge_get_double b var idx = .error .indexOutOfRange ∧
      rge_get_int b var idx = .error .indexOutOfRange ∧
      rge_get_uint b var idx = .error .indexOutOfRange) ∧
    (idx < b.nrows →
      (∃ v, rge_get_double b var idx = .ok v) ∧
      (∃ v, rge_get_int b var idx = .ok v) ∧
      (∃ v, rge_get_uint b var idx = .ok v)) := by
  obtain ⟨e, he⟩ := Option.isSome_iff_exists.mp hvar
  have hlen : e.2.length = b.nrows :=
    hwf e (List.mem_of_find?_eq_some he)
  constructor
  · intro hge
    have hnot : ¬ idx < b.nrows := Nat.not_lt.mpr hge
    unfold rge_get_double rge_get_int rge_get_uint get_entry
    simp only [he, if_neg hnot]
    simp [Except.map]
  · intro hlt
    unfold rge_get_double rge_get_int rge_get_uint get_entry
    simp only [he, if_pos hlt]
    exact ⟨⟨_, rfl⟩, ⟨_, rfl⟩, ⟨_, rfl⟩⟩

/-- Witness for claim C6: on a two-row bank, reading row 5 fails with
IndexOutOfRange and reading row 1 succeeds. -/
theorem rge_get_index_bounds_witness :
    rge_get_double ⟨2, [("pindex", [3, 4])]⟩ "pindex" 5 =
      .error .indexOutOfRange ∧
    (∃ v, rge_get_double ⟨2, [("pindex", [3, 4])]⟩ "pindex" 1 = .ok v) :=
  ⟨((rge_get_index_bounds ⟨2, [("pindex", [3, 4])]⟩ "pindex" 5
      (by decide) (by decide)).1 (by decide)).1,
   ((rge_get_index_bounds ⟨2, [("pindex", [3, 4])]⟩ "pindex" 1
      (by decide) (by decide)).2 (by decide)).1⟩

/-- Q2 DIS cut of acc_corr.c: Q2 of the event must be over this value. -/
def Q2CUT : ℚ := 1

/-- W DIS cut of acc_corr.c: W of the event must be over this value. -/
def WCUT : ℚ := 2

/-- W2 DIS cut of acc_corr.c: W2 of the event must be over this value. -/
def W2CUT : ℚ := 4

/-- Lines 77-78 of count_entries (acc_corr.c): for each of the five
binning variables, if the value is zero, continue. The continue statement
targets this inner per-dimension for loop, so either way the iteration
ends with no effect on the enclosing per-event loop; the returned flag
says whether the event is to be skipped. -/
def zero_filter (sbin : List ℚ) : Bool :=
  sbin.foldl (fun skip v => if v = 0 then skip else skip) false

/-- Per-event body of count_entries (acc_corr.c lines 71-102). find_pos
and to_rad are library functions outside src/ and enter as the parameters
fp and torad; torad returns none on the angle-range failure that makes
count_entries return 1. The result is error () when count_entries aborts,
ok none when the event is skipped or falls outside the binning, and
ok (some idx) when the event is counted into bin idx. The kill loop of
lines 92-98 stops at the first negative index; find_pos being pure,
computing all five indices and testing them for negativity is
equivalent. -/
def countEvent (fp : ℚ → List ℚ → Nat → Int) (torad : ℚ → Option ℚ)
    (pid : Int) (nbins : List Nat) (edges : List (List ℚ))
    (in_deg simul : Bool) (spid sb0 sb1 sb2 sb3 sb4 w w2 : ℚ) :
    Except Unit (Option (List Int)) :=
  if (pid : ℚ) - 1/2 < spid ∧ spid < (pid : ℚ) + 1/2 then .ok none
  else if zero_filter [sb0, sb1, sb2, sb3, sb4] = true then .ok none
  else if sb0 < Q2CUT then .ok none
  else if simul = false ∧ w < WCUT then .ok none
  else if simul = true ∧ w2 < W2CUT then .ok none
  else
    match (if in_deg then torad sb4 else some sb4) with
    | none => .error ()
    | some sb4c =>
      let sb := [sb0, sb1, sb2, sb3, sb4c]
      let idx := (List.range 5).map
        (fun bi => fp (sb.getD bi 0) (edges.getD bi []) (nbins.getD bi 0))
      if idx.any (fun i => decide (i < 0)) then .ok none else .ok (some idx)

/-- Stated from the spec's words: the same per-event body with the
zero-value check of lines 77-78 removed; comparison with countEvent
settles whether that check skips events. -/
def countEventNoZeroFilter (fp : ℚ → List ℚ → Nat → Int)
    (torad : ℚ → Option ℚ) (pid : Int) (nbins : List Nat)
    (edges : List (List ℚ)) (in_deg simul : Bool)
    (spid sb0 sb1 sb2 sb3 sb4 w w2 : ℚ) :
    Except Unit (Option (List Int)) :=
  if (pid : ℚ) - 1/2 < spid ∧ spid < (pid : ℚ) + 1/2 then .ok none
  else if sb0 < Q2CUT then .ok none
  else if simul = false ∧ w < WCUT then .ok none
  else if simul = true ∧ w2 < W2CUT then .ok none
  else
    match (if in_deg then torad sb4 else some sb4) with
    | none => .error ()
    | some sb4c =>
      let sb := [sb0, sb1, sb2, sb3, sb4c]
      let idx := (List.range 5).map
        (fun bi => fp (sb.getD bi 0) (edges.getD bi []) (nbins.getD bi 0))
      if idx.any (fun i => decide (i < 0)) then .ok none else .ok (some idx)

/-- The same per-event body with the PID check of lines 74-75 removed;
comparison with countEvent isolates the effect of the PID filter. -/
def countEventNoPidFilter (fp : ℚ → List ℚ → Nat → Int)
    (torad : ℚ → Option ℚ) (pid : Int) (nbins : List Nat)
    (edges : List (List ℚ)) (in_deg simul : Bool)
    (spid sb0 sb1 sb2 sb3 sb4 w w2 : ℚ) :
    Except Unit (Option (List Int)) :=
  if zero_filter [sb0, sb1, sb2, sb3, sb4] = true then .ok none
  else if sb0 < Q2CUT then .ok none
  else if simul = false ∧ w < WCUT then .ok none
  else if simul = true ∧ w2 < W2CUT then .ok none
  else
    match (if in_deg then torad sb4 else some sb4) with
    | none => .error ()
    | some sb4c =>
      let sb := [sb0, sb1, sb2, sb3, sb4c]
      let idx := (List.range 5).map
        (fun bi => fp (sb.getD bi 0) (edges.getD bi []) (nbins.getD bi 0))
      if idx.any (fun i => decide (i < 0)) then .ok none else .ok (some idx)

/-- The zero-value check never flags an event for skipping. -/
lemma zero_filter_eq_false (sbin : List ℚ) : zero_filter sbin = false := by
  unfold zero_filter
  have h : ∀ (l : List ℚ) (b : Bool),
      l.foldl (fun skip v => if v = 0 then skip else skip) b = b := by
    intro l
    induction l with
    | nil => intro b; rfl
    | cons x xs ih =>
      intro b
      rw [List.foldl_cons, ih]
      split <;> rfl
  exact h _ false

/-- Claim C8: the zero-value filter over the five binning variables in the
per-event loop of count_entries affects only the innermost per-dimension
loop and never skips the event: an event with a zero-valued kinematic
variable reaches the binning and counting steps exactly as any other
event, so the whole per-event body coincides with the body without the
filter. -/
theorem count_entries_zero_filter_noop :
    (∀ sbin : List ℚ, zero_filter sbin = false) ∧
    (∀ (fp : ℚ → List ℚ → Nat → Int) (torad : ℚ → Option ℚ) (pid : Int)
      (nbins : List Nat) (edges : List (List ℚ)) (in_deg simul : Bool)
      (spid sb0 sb1 sb2 sb3 sb4 w w2 : ℚ),
      countEvent fp torad pid nbins edges in_deg simul
        spid sb0 sb1 sb2 sb3 sb4 w w2 =
      countEventNoZeroFilter fp torad pid nbins edges in_deg simul
        spid sb0 sb1 sb2 sb3 sb4 w w2) := by
  refine ⟨zero_filter_eq_false, ?_⟩
  intro fp torad pid nbins edges in_deg simul spid sb0 sb1 sb2 sb3 sb4 w w2
  unfold countEvent countEventNoZeroFilter
  rw [zero_filter_eq_false]
  simp only [Bool.false_eq_true, if_false]

/-- Claim C10: in count_entries, an event whose stored pid lies strictly
within 0.5 of the selected pid is skipped by the PID filter, while an
event of any other pid passes the filter and is handled exactly as if the
filter were absent: the per-PID counts exclude the selected PID's events
instead of restricting to them. -/
theorem count_entries_pid_filter_excludes (fp : ℚ → List ℚ → Nat → Int)
    (torad : ℚ → Option ℚ) (pid : Int) (nbins : List Nat)
    (edges : List (List ℚ)) (in_deg simul : Bool)
    (spid sb0 sb1 sb2 sb3 sb4 w w2 : ℚ) :
    ((pid : ℚ) - 1/2 < spid ∧ spid < (pid : ℚ) + 1/2 →
      countEvent fp torad pid nbins edges in_deg simul
        spid sb0 sb1 sb2 sb3 sb4 w w2 = .ok none) ∧
    (¬ ((pid : ℚ) - 1/2 < spid ∧ spid < (pid : ℚ) + 1/2) →
      countEvent fp torad pid nbins edges in_deg simul
        spid sb0 sb1 sb2 sb3 sb4 w w2 =
      countEventNoPidFilter fp torad pid nbins edges in_deg simul
        spid sb0 sb1 sb2 sb3 sb4 w w2) := by
  constructor
  · intro h
    unfold countEvent
    rw [if_pos h]
  · intro h
    unfold countEvent countEventNoPidFilter
    rw [if_neg h]

/-- Witness for claim C10: with selected pid 211 and stored pid 211, the
event is skipped by the PID filter. -/
theorem count_entries_pid_filter_excludes_witness :
    countEvent (fun _ _ _ => 0) (fun _ => none) 211 [] [] false false
      211 1 1 1 1 1 3 5 = .ok none :=
  (count_entries_pid_filter_excludes (fun _ _ _ => 0) (fun _ => none) 211
    [] [] false false 211 1 1 1 1 1 3 5).1 (by norm_num)

end Rge
